import Mathlib

/-!
Verification of the natural-language specification of the AWS load-balancer
resource (`aws/resource_aws_lb.go`) against a shallow Lean embedding of its
code.  Pure helper functions of the source are translated directly; the
stateful lifecycle operations (Create / Update / Delete) are embedded as
functions from an explicit context (change flags, configuration values,
remote-call outcomes) to the list of remote calls they issue or the error
they return.
-/

namespace LbSpec

/-- `aws.StringValue`: dereference an optional string, `none` becomes `""`. -/
def stringValue : Option String → String := fun o => o.getD ""

/-- Wire shape of `elbv2.LoadBalancerAddress` (pointer fields are `Option`). -/
structure LoadBalancerAddress where
  allocationId : Option String
  privateIPv4Address : Option String
  ipv6Address : Option String
deriving Repr, DecidableEq

/-- Wire shape of `elbv2.AvailabilityZone`. -/
structure AvailabilityZone where
  subnetId : Option String
  outpostId : Option String
  loadBalancerAddresses : List LoadBalancerAddress
deriving Repr, DecidableEq

/-- Wire shape of `elbv2.LoadBalancer` (the fields `flattenAwsLbResource` reads). -/
structure LoadBalancerWire where
  loadBalancerArn : Option String
  loadBalancerName : Option String
  scheme : Option String
  securityGroups : List String
  vpcId : Option String
  canonicalHostedZoneId : Option String
  dnsName : Option String
  ipAddressType : Option String
  lbType : Option String
  customerOwnedIpv4Pool : Option String
  availabilityZones : List AvailabilityZone
deriving Repr, DecidableEq

/-- `flattenSubnetsFromAvailabilityZones`: the subnet ids of the zone list. -/
def flattenSubnetsFromAvailabilityZones (azs : List AvailabilityZone) : List String :=
  azs.map (fun az => stringValue az.subnetId)

/-- The `map[string]interface{}` built per zone by
`flattenSubnetMappingsFromAvailabilityZones`.  A Go map key that is never
written is absent; absence is modelled as `none`, while `subnet_id` and
`outpost_id` are always written. -/
structure SubnetMappingRaw where
  subnet_id : String
  outpost_id : String
  allocation_id : Option String
  private_ipv4_address : Option String
  ipv6_address : Option String
deriving Repr, DecidableEq

/-- The per-zone body of `flattenSubnetMappingsFromAvailabilityZones`:
`subnet_id`/`outpost_id` are set once, then the loop over
`availabilityZone.LoadBalancerAddresses` overwrites the three address
fields for each address record. -/
def flattenSubnetMappingOfZone (az : AvailabilityZone) : SubnetMappingRaw :=
  az.loadBalancerAddresses.foldl
    (fun m a =>
      { m with
        allocation_id := some (stringValue a.allocationId)
        private_ipv4_address := some (stringValue a.privateIPv4Address)
        ipv6_address := some (stringValue a.ipv6Address) })
    { subnet_id := stringValue az.subnetId
      outpost_id := stringValue az.outpostId
      allocation_id := none
      private_ipv4_address := none
      ipv6_address := none }

/-- `flattenSubnetMappingsFromAvailabilityZones`. -/
def flattenSubnetMappingsFromAvailabilityZones (azs : List AvailabilityZone) :
    List SubnetMappingRaw :=
  azs.map flattenSubnetMappingOfZone

/-- Modelled from the spec: the schema layer (the declarative-configuration
collaborator of section 6) stores a set element written by the Remote State
Mapper; keys the mapper left unset are stored as the zero value of their
type, i.e. the empty string for the optional address fields ("absence leaves
those fields empty rather than null-valued", section 4.2). -/
structure SubnetMappingEntity where
  subnetId : String
  outpostId : String
  allocationId : String
  privateIPv4 : String
  ipv6 : String
deriving Repr, DecidableEq

/-- Modelled from the spec: the zero-value fill the schema layer applies when
storing a raw mapping record (see `SubnetMappingEntity`). -/
def storeSubnetMapping (m : SubnetMappingRaw) : SubnetMappingEntity :=
  { subnetId := m.subnet_id
    outpostId := m.outpost_id
    allocationId := m.allocation_id.getD ""
    privateIPv4 := m.private_ipv4_address.getD ""
    ipv6 := m.ipv6_address.getD "" }

/-! ### ARN parsing (`getLbNameFromArn`, `lbSuffixFromARN`)

The source uses Go regular expressions; the two patterns are embedded as
explicit character-list functions with the same matching semantics. -/

/-- The `[^/]` character class of the source regexes. -/
def notSlash (c : Char) : Bool := c ≠ '/'

/-- One reversed path segment: the maximal run of non-`'/'` characters at the
front, and the remainder. -/
def revSeg (l : List Char) : List Char × List Char :=
  (l.takeWhile notSlash, l.dropWhile notSlash)

/-- `getLbNameFromArn`: the regex `([^/]+/[^/]+/[^/]+)$` — match the trailing
three nonempty `/`-separated segments of the identifier, or fail with the
"Unexpected ARN format" error. -/
def getLbNameFromArnCore (s : List Char) : Except String (List Char) :=
  match revSeg s.reverse with
  | ([], _) => .error "Unexpected ARN format"
  | (c1 :: cr, '/' :: r2) =>
    (match revSeg r2 with
    | ([], _) => .error "Unexpected ARN format"
    | (b1 :: br, '/' :: r4) =>
      (match revSeg r4 with
      | ([], _) => .error "Unexpected ARN format"
      | (a1 :: ar, _) =>
        .ok ((a1 :: ar).reverse ++ '/' :: (b1 :: br).reverse ++ '/' :: (c1 :: cr).reverse))
    | (_ :: _, _) => .error "Unexpected ARN format")
  | (_ :: _, _) => .error "Unexpected ARN format"

/-- String-level `getLbNameFromArn`. -/
def getLbNameFromArn (arn : String) : Except String String :=
  match getLbNameFromArnCore arn.data with
  | .error e => .error e
  | .ok l => .ok (String.mk l)

/-- Split a character list around the first occurrence of `pat`, returning the
parts before and after it. -/
def splitFirst (pat : List Char) : List Char → Option (List Char × List Char)
  | [] => none
  | x :: xs =>
    if pat.isPrefixOf (x :: xs) then some ([], (x :: xs).drop pat.length)
    else (splitFirst pat xs).map (fun pr => (x :: pr.1, pr.2))

/-- Split a character list around the last occurrence of `pat` (via the first
occurrence of the reversed pattern in the reversed list). -/
def splitLast (pat : List Char) (l : List Char) : Option (List Char × List Char) :=
  (splitFirst pat.reverse l.reverse).map (fun pr => (pr.2.reverse, pr.1.reverse))

/-- `lbSuffixFromARN`: the regex `arn:.*:loadbalancer/(.*)` applied with
leftmost-first (greedy) semantics — everything after the last
`:loadbalancer/` that follows the first `arn:`; empty string (never an
error) when the pattern does not match or the pointer is nil. -/
def lbSuffixFromArnCore (s : List Char) : List Char :=
  match splitFirst "arn:".data s with
  | none => []
  | some pr =>
    match splitLast ":loadbalancer/".data pr.2 with
    | none => []
    | some qr => qr.2

/-- String-level `lbSuffixFromARN` (nil pointer yields `""`). -/
def lbSuffixFromARN (arn : Option String) : String :=
  match arn with
  | none => ""
  | some a => String.mk (lbSuffixFromArnCore a.data)

/-! ### Decimal printing and parsing (`fmt.Sprintf("%d", _)`, `strconv.Atoi`) -/

/-- The decimal digit character for a value below ten. -/
def digitChar : Nat → Char
  | 0 => '0' | 1 => '1' | 2 => '2' | 3 => '3' | 4 => '4'
  | 5 => '5' | 6 => '6' | 7 => '7' | 8 => '8' | _ => '9'

/-- Decimal digits of a natural number, most significant first. -/
def natChars (n : Nat) : List Char :=
  if h : n < 10 then [digitChar n]
  else natChars (n / 10) ++ [digitChar (n % 10)]
termination_by n
decreasing_by exact Nat.div_lt_self (by omega) (by omega)

/-- The numeric value of a decimal digit character; ten for anything else. -/
def digitVal : Char → Nat
  | '0' => 0 | '1' => 1 | '2' => 2 | '3' => 3 | '4' => 4
  | '5' => 5 | '6' => 6 | '7' => 7 | '8' => 8 | '9' => 9
  | _ => 10

/-- Is the character a decimal digit (Go: `'0' <= c && c <= '9'`). -/
def isDigitCh (c : Char) : Bool := digitVal c < 10

/-- Parse an unsigned decimal numeral: at least one character, all digits. -/
def parseNatChars (l : List Char) : Option Nat :=
  if l ≠ [] ∧ l.all isDigitCh then
    some (l.foldl (fun acc c => acc * 10 + digitVal c) 0)
  else none

/-- `fmt.Sprintf("%d", i)` for a (signed) integer. -/
def intChars (i : Int) : List Char :=
  if i < 0 then '-' :: natChars (-i).toNat else natChars i.toNat

/-- `strconv.Atoi` on the sign-and-digits forms the printer can produce
(Go additionally accepts a leading `+`, which the printer never emits). -/
def parseIntChars (l : List Char) : Option Int :=
  match l with
  | [] => none
  | c :: rest =>
    if c = '-' then (parseNatChars rest).map (fun n => -(n : Int))
    else (parseNatChars (c :: rest)).map (fun n => (n : Int))

/-- String-level decimal printer. -/
def intValueStr (i : Int) : String := String.mk (intChars i)

/-- String-level `strconv.Atoi`. -/
def parseIntStr (s : String) : Option Int := parseIntChars s.data

/-- `strconv.FormatBool` / `fmt.Sprintf("%t", _)`. -/
def boolStr (b : Bool) : String := if b then "true" else "false"

/-! ### Load-balancer attributes and their decoding (`flattenAwsLbResource`) -/

/-- Wire shape of `elbv2.LoadBalancerAttribute` (keys and values are always
present on the wire). -/
structure LbAttribute where
  key : String
  value : String
deriving Repr, DecidableEq

/-- The attribute-backed fields of the resource state.  `flattenAwsLbResource`
rebuilds the access-log block from scratch on every read; the other five
fields are only overwritten when their key occurs in the attribute list. -/
structure AttrState where
  accessEnabled : Bool
  accessBucket : String
  accessPrefixVal : String
  idleTimeout : Int
  dropInvalidHeaderFields : Bool
  deletionProtection : Bool
  http2 : Bool
  crossZone : Bool
deriving Repr, DecidableEq

/-- One arm of the `switch aws.StringValue(attr.Key)` in
`flattenAwsLbResource`; unknown keys are ignored, a malformed idle-timeout
value aborts the read with the parse error. -/
def decodeAttrStep (st : AttrState) (a : LbAttribute) : Except String AttrState :=
  if a.key = "access_logs.s3.enabled" then
    .ok { st with accessEnabled := a.value == "true" }
  else if a.key = "access_logs.s3.bucket" then
    .ok { st with accessBucket := a.value }
  else if a.key = "access_logs.s3.prefix" then
    .ok { st with accessPrefixVal := a.value }
  else if a.key = "idle_timeout.timeout_seconds" then
    match parseIntStr a.value with
    | none => .error "Error parsing ALB timeout"
    | some t => .ok { st with idleTimeout := t }
  else if a.key = "routing.http.drop_invalid_header_fields.enabled" then
    .ok { st with dropInvalidHeaderFields := a.value == "true" }
  else if a.key = "deletion_protection.enabled" then
    .ok { st with deletionProtection := a.value == "true" }
  else if a.key = "routing.http2.enabled" then
    .ok { st with http2 := a.value == "true" }
  else if a.key = "load_balancing.cross_zone.enabled" then
    .ok { st with crossZone := a.value == "true" }
  else .ok st

/-- The attribute loop of `flattenAwsLbResource`. -/
def decodeAttrs (st : AttrState) : List LbAttribute → Except String AttrState
  | [] => .ok st
  | a :: rest =>
    match decodeAttrStep st a with
    | .error e => .error e
    | .ok st2 => decodeAttrs st2 rest

/-- The resource state written by `flattenAwsLbResource` (one field per
`d.Set`; `arnSuffix` is derived from the identity). -/
structure LbState where
  arn : String
  arnSuffix : String
  name : String
  internal : Bool
  securityGroups : List String
  vpcId : String
  zoneId : String
  dnsName : String
  ipAddressType : String
  loadBalancerType : String
  customerOwnedIpv4Pool : String
  subnets : List String
  subnetMapping : List SubnetMappingRaw
  tags : List (String × String)
  attrs : AttrState
deriving Repr, DecidableEq

/-- `flattenAwsLbResource`: decode a remote record, tag list and attribute
list into the stored state.  `prior` is the pre-existing state of the five
overwrite-only attribute fields; the access-log block always restarts from
`{"", false, ""}`. -/
def flattenAwsLbResource (lb : LoadBalancerWire) (attrList : List LbAttribute)
    (tags : List (String × String)) (prior : AttrState) : Except String LbState :=
  match decodeAttrs
      { prior with accessEnabled := false, accessBucket := "", accessPrefixVal := "" }
      attrList with
  | .error e => .error e
  | .ok st =>
    .ok
      { arn := stringValue lb.loadBalancerArn
        arnSuffix := lbSuffixFromARN lb.loadBalancerArn
        name := stringValue lb.loadBalancerName
        internal := lb.scheme == some "internal"
        securityGroups := lb.securityGroups
        vpcId := stringValue lb.vpcId
        zoneId := stringValue lb.canonicalHostedZoneId
        dnsName := stringValue lb.dnsName
        ipAddressType := stringValue lb.ipAddressType
        loadBalancerType := stringValue lb.lbType
        customerOwnedIpv4Pool := stringValue lb.customerOwnedIpv4Pool
        subnets := flattenSubnetsFromAvailabilityZones lb.availabilityZones
        subnetMapping := flattenSubnetMappingsFromAvailabilityZones lb.availabilityZones
        tags := tags
        attrs := st }

/-! ### The canonical entity and the encode direction of the mapper -/

/-- The attachment field of the canonical entity: one of the two
representations of section 3 carries the data. -/
inductive NetworkAttachments where
  | subnetIds (subnets : List String)
  | mappings (ms : List SubnetMappingEntity)
deriving Repr, DecidableEq

/-- The canonical load-balancer entity of section 3 (derived-only fields such
as the ARN suffix are recomputed from `arn`, not stored). -/
structure LbEntity where
  arn : String
  name : String
  internal : Bool
  securityGroups : List String
  vpcId : String
  zoneId : String
  dnsName : String
  ipAddressType : String
  loadBalancerType : String
  customerOwnedIpv4Pool : String
  attachment : NetworkAttachments
  tags : List (String × String)
  accessEnabled : Bool
  accessBucket : String
  accessPrefixVal : String
  idleTimeout : Int
  dropInvalidHeaderFields : Bool
  deletionProtection : Bool
  http2 : Bool
  crossZone : Bool
deriving Repr, DecidableEq

/-- Modelled from the spec: the encode direction of the Remote State Mapper
(section 4.2 calls the mapper "bidirectional, total, deterministic"; only
the decode direction appears in the source, the wire record being produced
by the remote control plane).  A mapping record encodes to a zone record
whose address list is empty exactly when all three optional address fields
are empty ("one zone may contribute zero or more address fields"). -/
def encodeZoneOfMapping (m : SubnetMappingEntity) : AvailabilityZone :=
  { subnetId := some m.subnetId
    outpostId := some m.outpostId
    loadBalancerAddresses :=
      if m.allocationId = "" ∧ m.privateIPv4 = "" ∧ m.ipv6 = "" then []
      else
        [{ allocationId := some m.allocationId
           privateIPv4Address := some m.privateIPv4
           ipv6Address := some m.ipv6 }] }

/-- Modelled from the spec: zone list of the encoded wire record, one zone per
attachment element. -/
def encodeZones : NetworkAttachments → List AvailabilityZone
  | .subnetIds l =>
    l.map (fun s => { subnetId := some s, outpostId := some "", loadBalancerAddresses := [] })
  | .mappings ms => ms.map encodeZoneOfMapping

/-- Modelled from the spec: the wire record encoding of the canonical entity
(the inverse direction of `flattenAwsLbResource`). -/
def encodeLb (e : LbEntity) : LoadBalancerWire :=
  { loadBalancerArn := some e.arn
    loadBalancerName := some e.name
    scheme := some (if e.internal then "internal" else "internet-facing")
    securityGroups := e.securityGroups
    vpcId := some e.vpcId
    canonicalHostedZoneId := some e.zoneId
    dnsName := some e.dnsName
    ipAddressType := some e.ipAddressType
    lbType := some e.loadBalancerType
    customerOwnedIpv4Pool := some e.customerOwnedIpv4Pool
    availabilityZones := encodeZones e.attachment }

/-- Modelled from the spec: the flat attribute list encoding of the entity's
structured attribute fields (the keys of `flattenAwsLbResource`'s switch). -/
def encodeAttrs (e : LbEntity) : List LbAttribute :=
  [ ⟨"access_logs.s3.enabled", boolStr e.accessEnabled⟩,
    ⟨"access_logs.s3.bucket", e.accessBucket⟩,
    ⟨"access_logs.s3.prefix", e.accessPrefixVal⟩,
    ⟨"idle_timeout.timeout_seconds", intValueStr e.idleTimeout⟩,
    ⟨"routing.http.drop_invalid_header_fields.enabled", boolStr e.dropInvalidHeaderFields⟩,
    ⟨"deletion_protection.enabled", boolStr e.deletionProtection⟩,
    ⟨"routing.http2.enabled", boolStr e.http2⟩,
    ⟨"load_balancing.cross_zone.enabled", boolStr e.crossZone⟩ ]

/-! ### The update operation (`resourceAwsLbUpdate`) -/

/-- The configured `access_logs` block (`none`: list empty or nil element). -/
structure AccessLogConfig where
  bucket : String
  enabled : Bool
  logPrefix : String
deriving Repr, DecidableEq

/-- The inputs `resourceAwsLbUpdate` reads from the resource data: the
per-field change detector (`d.HasChange`), `d.IsNewResource`, and the
current configuration values it sends. -/
structure UpdateCtx where
  lbType : String
  isNew : Bool
  hasChangeTags : Bool
  hasChangeAccessLogs : Bool
  hasChangeIdleTimeout : Bool
  hasChangeHttp2 : Bool
  hasChangeDropInvalid : Bool
  hasChangeCrossZone : Bool
  hasChangeDeletionProtection : Bool
  hasChangeSecurityGroups : Bool
  hasChangeSubnets : Bool
  hasChangeIpAddressType : Bool
  accessLogs : Option AccessLogConfig
  idleTimeout : Int
  http2 : Bool
  dropInvalidHeaderFields : Bool
  crossZone : Bool
  deletionProtection : Bool
  securityGroups : List String
  subnets : List String
  ipAddressType : String
deriving Repr, DecidableEq

/-- The access-log arm of the attribute diff (lines 384-414): a lone disable
instruction when the block is absent or disabled, enable-plus-bucket-plus-
prefix when enabled. -/
def accessLogAttrs (logs : Option AccessLogConfig) : List LbAttribute :=
  match logs with
  | some l =>
    ⟨"access_logs.s3.enabled", boolStr l.enabled⟩ ::
      (if l.enabled then
        [⟨"access_logs.s3.bucket", l.bucket⟩, ⟨"access_logs.s3.prefix", l.logPrefix⟩]
      else [])
  | none => [⟨"access_logs.s3.enabled", "false"⟩]

/-- The `switch d.Get("load_balancer_type")` arm of the attribute diff
(lines 416-445). -/
def typeSwitchAttrs (c : UpdateCtx) : List LbAttribute :=
  if c.lbType = "application" then
    (if c.hasChangeIdleTimeout || c.isNew then
      [⟨"idle_timeout.timeout_seconds", intValueStr c.idleTimeout⟩] else []) ++
    (if c.hasChangeHttp2 || c.isNew then
      [⟨"routing.http2.enabled", boolStr c.http2⟩] else []) ++
    (if c.hasChangeDropInvalid || c.isNew then
      [⟨"routing.http.drop_invalid_header_fields.enabled", boolStr c.dropInvalidHeaderFields⟩]
    else [])
  else if c.lbType = "gateway" ∨ c.lbType = "network" then
    if c.hasChangeCrossZone || c.isNew then
      [⟨"load_balancing.cross_zone.enabled", boolStr c.crossZone⟩]
    else []
  else []

/-- The deletion-protection arm of the attribute diff (lines 447-452),
emitted for every variant under the changed-or-new rule. -/
def deletionProtectionAttrs (c : UpdateCtx) : List LbAttribute :=
  if c.hasChangeDeletionProtection || c.isNew then
    [⟨"deletion_protection.enabled", boolStr c.deletionProtection⟩]
  else []

/-- The full attribute list `resourceAwsLbUpdate` accumulates before the
`ModifyLoadBalancerAttributes` call. -/
def updateAttributes (c : UpdateCtx) : List LbAttribute :=
  (if c.hasChangeAccessLogs then accessLogAttrs c.accessLogs else []) ++
    typeSwitchAttrs c ++ deletionProtectionAttrs c

/-- A remote call issued by the update operation, in source order. -/
inductive RemoteCall where
  | updateTags
  | modifyAttributes (attrs : List LbAttribute)
  | setSecurityGroups (groups : List String)
  | setSubnets (subnets : List String)
  | setIpAddressType (t : String)
  | pollActive
  | readResource
deriving Repr, DecidableEq

/-- The calls `resourceAwsLbUpdate` issues, in order: tags, attributes (only
when the accumulated list is nonempty), security groups, subnets (suppressed
on a newly created resource), IP address type, then the active-state poll
and the final re-read. -/
def updateCalls (c : UpdateCtx) : List RemoteCall :=
  (if c.hasChangeTags then [RemoteCall.updateTags] else []) ++
  (if updateAttributes c ≠ [] then [RemoteCall.modifyAttributes (updateAttributes c)] else []) ++
  (if c.hasChangeSecurityGroups then [RemoteCall.setSecurityGroups c.securityGroups] else []) ++
  (if c.hasChangeSubnets && !c.isNew then [RemoteCall.setSubnets c.subnets] else []) ++
  (if c.hasChangeIpAddressType then [RemoteCall.setIpAddressType c.ipAddressType] else []) ++
  [RemoteCall.pollActive, RemoteCall.readResource]

/-- Execute a call list against an outcome oracle: stop with the failing call
on the first failure (the source returns the wrapped error there), otherwise
return the executed trace. -/
def runCalls (ok : RemoteCall → Bool) : List RemoteCall → Except RemoteCall (List RemoteCall)
  | [] => .ok []
  | c :: rest =>
    if ok c then
      match runCalls ok rest with
      | .error e => .error e
      | .ok tr => .ok (c :: tr)
    else .error c

/-- `resourceAwsLbUpdate` as a run against an outcome oracle. -/
def runUpdate (c : UpdateCtx) (ok : RemoteCall → Bool) : Except RemoteCall (List RemoteCall) :=
  runCalls ok (updateCalls c)

/-! ### The create request (`resourceAwsLbCreate`, lines 286-312) -/

/-- Wire shape of `elbv2.SubnetMapping` in the create request. -/
structure SubnetMappingRequest where
  subnetId : String
  allocationId : Option String
  privateIPv4Address : Option String
  ipv6Address : Option String
deriving Repr, DecidableEq

/-- The attachment part of `elbv2.CreateLoadBalancerInput` (`none`: the field
is left unset on the request). -/
structure CreateAttachments where
  subnets : Option (List String)
  subnetMappings : Option (List SubnetMappingRequest)
deriving Repr, DecidableEq

/-- The configured attachment values the create operation reads
(`d.GetOk` treats an empty set as not-ok, so emptiness means absent). -/
structure CreateConfig where
  subnets : List String
  subnetMappings : List SubnetMappingEntity
deriving Repr, DecidableEq

/-- Lines 286-312 of `resourceAwsLbCreate`: each attachment representation is
copied onto the request when its configured set is nonempty; empty optional
strings inside a mapping are omitted from the request record. -/
def createAttachments (cfg : CreateConfig) : CreateAttachments :=
  { subnets := if cfg.subnets ≠ [] then some cfg.subnets else none
    subnetMappings :=
      if cfg.subnetMappings ≠ [] then
        some (cfg.subnetMappings.map (fun m =>
          { subnetId := m.subnetId
            allocationId := if m.allocationId ≠ "" then some m.allocationId else none
            privateIPv4Address := if m.privateIPv4 ≠ "" then some m.privateIPv4 else none
            ipv6Address := if m.ipv6 ≠ "" then some m.ipv6 else none }))
      else none }

/-! ### The replacement decision (`customizeDiffNLBSubnets`) -/

/-- `customizeDiffNLBSubnets` reduced to its decision: does it mark the
`subnets` field `ForceNew`?  `o`/`n` are the raw values of
`diff.GetChange("subnets")` (`none` models the nil interface the source
replaces by an empty set). -/
def requiresReplacement (lbType : String) (id : String)
    (o n : Option (List String)) : Bool :=
  if lbType ≠ "network" then false
  else if id = "" then false
  else
    let os := o.getD []
    let ns := n.getD []
    let removeList := os.filter (fun x => !ns.contains x)
    let addList := ns.filter (fun x => !os.contains x)
    !removeList.isEmpty || !addList.isEmpty

/-- The replacement predicate as the specification words it (section 8:
"true iff variant in {network, gateway} AND the resource already exists AND
the attachment set differs"); stated for comparison with the source's
`requiresReplacement`. -/
def claimedRequiresReplacement (lbType : String) (id : String)
    (o n : Option (List String)) : Bool :=
  let os := o.getD []
  let ns := n.getD []
  decide ((lbType = "network" ∨ lbType = "gateway") ∧ id ≠ "" ∧
    ((∃ x ∈ os, x ∉ ns) ∨ (∃ x ∈ ns, x ∉ os)))

/-! ### The delete operation (`resourceAwsLbDelete` and its cleanup) -/

/-- Outcome of the `resource.Retry` loop in
`waitForNLBNetworkInterfacesToDetach`. -/
inductive RetryOutcome where
  | success
  | fatal
  | timeout
deriving Repr, DecidableEq

/-- The retry loop: each element is one `DescribeNetworkInterfaces` outcome
before the 5-minute deadline (`none` a call error — non-retryable; `some k`
k interfaces found — retryable unless zero); an exhausted list is the
deadline elapsing. -/
def retryDescribe : List (Option Nat) → RetryOutcome
  | [] => .timeout
  | none :: _ => .fatal
  | some 0 :: _ => .success
  | some (_ + 1) :: rest => retryDescribe rest

/-- `waitForNLBNetworkInterfacesToDetach`: parse the name from the ARN, run
the retry loop; on deadline, one final query decides between success (zero
interfaces), the describe error, or the leftover-interfaces error. -/
def waitForNLBNetworkInterfacesToDetach (arn : List Char)
    (queries : List (Option Nat)) (finalQuery : Option Nat) : Except String Unit :=
  match getLbNameFromArnCore arn with
  | .error e => .error e
  | .ok _ =>
    match retryDescribe queries with
    | .success => .ok ()
    | .fatal => .error "Error describing network interfaces"
    | .timeout =>
      match finalQuery with
      | none => .error "Error describing network interfaces"
      | some 0 => .ok ()
      | some (_ + 1) => .error "Error waiting for ENIs to clean up"

/-- `cleanupLBNetworkInterfaces`: parse the name, describe the owned
interfaces (`none` a call error, `some k` k interfaces), then detach and
delete them in one pass. -/
def cleanupLBNetworkInterfaces (arn : List Char) (describeResult : Option Nat)
    (detachResult deleteResult : Except String Unit) : Except String Unit :=
  match getLbNameFromArnCore arn with
  | .error e => .error e
  | .ok _ =>
    match describeResult with
    | none => .error "Error describing network interfaces"
    | some 0 => .ok ()
    | some (_ + 1) =>
      match detachResult with
      | .error e => .error e
      | .ok _ => deleteResult

/-- `resourceAwsLbDelete`: the destroy call decides the outcome; the results
of the two cleanup phases are demoted to log warnings (second component),
never to the returned error. -/
def resourceAwsLbDelete (deleteLbOk : Bool)
    (cleanupResult waitResult : Except String Unit) :
    Except String Unit × List String :=
  if deleteLbOk then
    (.ok (),
      (match cleanupResult with | .error e => [e] | .ok _ => []) ++
        (match waitResult with | .error e => [e] | .ok _ => []))
  else (.error "Error deleting LB", [])

/-- `isAccessLogKey k`: is `k` one of the three access-log attribute keys. -/
def isAccessLogKey (k : String) : Bool :=
  k = "access_logs.s3.enabled" || k = "access_logs.s3.bucket" || k = "access_logs.s3.prefix"

/-! ## Helper lemmas -/

theorem digitVal_digitChar (d : Nat) (h : d < 10) : digitVal (digitChar d) = d := by
  interval_cases d <;> rfl

theorem isDigitCh_digitChar (d : Nat) (h : d < 10) : isDigitCh (digitChar d) = true := by
  interval_cases d <;> rfl

theorem natChars_ne_nil (n : Nat) : natChars n ≠ [] := by
  rw [natChars]
  split
  · simp
  · simp

theorem natChars_all_digits (n : Nat) : (natChars n).all isDigitCh = true := by
  induction n using Nat.strong_induction_on with
  | _ n ih =>
    rw [natChars]
    split
    · next h => simp [isDigitCh_digitChar _ h]
    · next h =>
      rw [List.all_append]
      have h1 := ih (n / 10) (Nat.div_lt_self (by omega) (by omega))
      have h2 := isDigitCh_digitChar (n % 10) (Nat.mod_lt _ (by omega))
      simp [h1, h2]

theorem natChars_val (n : Nat) :
    (natChars n).foldl (fun acc c => acc * 10 + digitVal c) 0 = n := by
  induction n using Nat.strong_induction_on with
  | _ n ih =>
    rw [natChars]
    split
    · next h => simp [digitVal_digitChar _ h]
    · next h =>
      rw [List.foldl_append]
      rw [ih (n / 10) (Nat.div_lt_self (by omega) (by omega))]
      simp only [List.foldl_cons, List.foldl_nil]
      rw [digitVal_digitChar _ (Nat.mod_lt _ (by omega))]
      omega

theorem parseNatChars_natChars (n : Nat) : parseNatChars (natChars n) = some n := by
  unfold parseNatChars
  rw [if_pos ⟨natChars_ne_nil n, natChars_all_digits n⟩, natChars_val]

theorem parseIntChars_intChars (i : Int) : parseIntChars (intChars i) = some i := by
  unfold intChars
  split
  · next h =>
    have ht : (((-i).toNat : Nat) : Int) = -i := Int.toNat_of_nonneg (by omega)
    simp [parseIntChars, parseNatChars_natChars, ht]
  · next h =>
    have ht : ((i.toNat : Nat) : Int) = i := Int.toNat_of_nonneg (by omega)
    rcases hnc : natChars i.toNat with _ | ⟨c, cs⟩
    · exact absurd hnc (natChars_ne_nil _)
    · have hd : isDigitCh c = true := by
        have hall := natChars_all_digits i.toNat
        rw [hnc, List.all_cons] at hall
        simp at hall
        exact hall.1
      have hcne : ¬ (c = '-') := by
        intro hc
        rw [hc] at hd
        exact absurd hd (by decide)
      simp only [parseIntChars]
      rw [if_neg hcne, ← hnc, parseNatChars_natChars]
      simp [ht]

theorem parseIntStr_intValueStr (i : Int) : parseIntStr (intValueStr i) = some i :=
  parseIntChars_intChars i

theorem boolStr_beq_true (b : Bool) : ((boolStr b) == "true") = b := by
  cases b <;> rfl

theorem foldAddr_subnet_preserved (l : List LoadBalancerAddress) (m : SubnetMappingRaw) :
    (l.foldl (fun m a =>
      { m with
        allocation_id := some (stringValue a.allocationId)
        private_ipv4_address := some (stringValue a.privateIPv4Address)
        ipv6_address := some (stringValue a.ipv6Address) }) m).subnet_id = m.subnet_id := by
  induction l generalizing m with
  | nil => rfl
  | cons a l ih => exact ih _

theorem foldAddr_outpost_preserved (l : List LoadBalancerAddress) (m : SubnetMappingRaw) :
    (l.foldl (fun m a =>
      { m with
        allocation_id := some (stringValue a.allocationId)
        private_ipv4_address := some (stringValue a.privateIPv4Address)
        ipv6_address := some (stringValue a.ipv6Address) }) m).outpost_id = m.outpost_id := by
  induction l generalizing m with
  | nil => rfl
  | cons a l ih => exact ih _

theorem foldAddr_getLast (l : List LoadBalancerAddress) (m : SubnetMappingRaw) :
    l.foldl (fun m a =>
      { m with
        allocation_id := some (stringValue a.allocationId)
        private_ipv4_address := some (stringValue a.privateIPv4Address)
        ipv6_address := some (stringValue a.ipv6Address) }) m =
    (match l.getLast? with
     | none => m
     | some a =>
       { m with
         allocation_id := some (stringValue a.allocationId)
         private_ipv4_address := some (stringValue a.privateIPv4Address)
         ipv6_address := some (stringValue a.ipv6Address) }) := by
  induction l generalizing m with
  | nil => rfl
  | cons a l ih =>
    rcases l with _ | ⟨b, l2⟩
    · rfl
    · rw [List.foldl_cons, ih]
      rfl

theorem store_flatten_encode (m : SubnetMappingEntity) :
    storeSubnetMapping (flattenSubnetMappingOfZone (encodeZoneOfMapping m)) = m := by
  unfold encodeZoneOfMapping flattenSubnetMappingOfZone storeSubnetMapping
  split
  · next h =>
    obtain ⟨h1, h2, h3⟩ := h
    cases m
    simp_all [stringValue]
  · next h =>
    cases m
    simp [stringValue]

theorem decodeAttrs_encodeAttrs (e : LbEntity) (st0 : AttrState) :
    decodeAttrs st0 (encodeAttrs e) = .ok
      ⟨e.accessEnabled, e.accessBucket, e.accessPrefixVal, e.idleTimeout,
       e.dropInvalidHeaderFields, e.deletionProtection, e.http2, e.crossZone⟩ := by
  simp [encodeAttrs, decodeAttrs, decodeAttrStep, parseIntStr_intValueStr,
    boolStr_beq_true]

theorem typeSwitchAttrs_filter_access (c : UpdateCtx) :
    (typeSwitchAttrs c).filter (fun a => isAccessLogKey a.key) = [] := by
  unfold typeSwitchAttrs
  split_ifs <;> simp [List.filter_append, isAccessLogKey]

theorem deletionProtectionAttrs_filter_access (c : UpdateCtx) :
    (deletionProtectionAttrs c).filter (fun a => isAccessLogKey a.key) = [] := by
  unfold deletionProtectionAttrs
  split_ifs <;> simp [isAccessLogKey]

theorem accessLogAttrs_filter_self (logs : Option AccessLogConfig) :
    (accessLogAttrs logs).filter (fun a => isAccessLogKey a.key) = accessLogAttrs logs := by
  unfold accessLogAttrs
  cases logs with
  | none => simp [isAccessLogKey]
  | some l =>
    by_cases h : l.enabled = true <;> simp [h, isAccessLogKey]

theorem runCalls_ok_trace (ok : RemoteCall → Bool) (l : List RemoteCall) :
    ∀ tr, runCalls ok l = .ok tr → tr = l := by
  induction l with
  | nil =>
    intro tr h
    simp [runCalls] at h
    exact h
  | cons c rest ih =>
    intro tr h
    rw [runCalls] at h
    by_cases hc : ok c
    · rw [if_pos hc] at h
      rcases hr : runCalls ok rest with e | tr2
      · rw [hr] at h
        exact absurd h (by simp)
      · rw [hr] at h
        simp at h
        rw [← h, ih tr2 hr]
    · rw [if_neg hc] at h
      exact absurd h (by simp)

/-! ## Claim C1 -/

/-- C1 counterexample: on an existing `gateway`-variant resource whose subnet
set changes, the spec's predicate demands replacement but
`customizeDiffNLBSubnets` forces none (it tests only for the `network`
variant). -/
theorem c1_gateway_counterexample :
    claimedRequiresReplacement "gateway" "arn-id" (some ["subnet-a"]) (some ["subnet-b"]) = true ∧
    requiresReplacement "gateway" "arn-id" (some ["subnet-a"]) (some ["subnet-b"]) = false := by
  constructor
  · decide
  · rfl

/-- C1 (amended): the replacement decision of `customizeDiffNLBSubnets` is
true iff the variant is `network` (gateway is NOT included), the resource
already exists (non-empty identity) and the old and new subnet sets differ;
false in every other case, including the `application` and `gateway`
variants and any brand-new resource. -/
theorem c1_requiresReplacement_characterization (lbType id : String)
    (o n : Option (List String)) :
    requiresReplacement lbType id o n = true ↔
      lbType = "network" ∧ id ≠ "" ∧
        ((∃ x ∈ o.getD [], x ∉ n.getD []) ∨ (∃ x ∈ n.getD [], x ∉ o.getD [])) := by
  unfold requiresReplacement
  split_ifs with h1 h2
  · simp only [Bool.false_eq_true, false_iff]
    rintro ⟨hc, -⟩
    exact h1 hc
  · simp only [Bool.false_eq_true, false_iff]
    rintro ⟨-, hid, -⟩
    exact hid h2
  · have hn : lbType = "network" := not_not.mp h1
    simp [hn, h2]

/-! ## Claim C3 -/

theorem notSlash_eq_false : notSlash '/' = false := by decide

theorem notSlash_of_ne (x : Char) (hx : x ≠ '/') : notSlash x = true := by
  simp [notSlash, hx]

theorem ne_of_notSlash (x : Char) (hx : notSlash x = true) : x ≠ '/' := by
  simpa [notSlash] using hx

theorem takeWhile_slashfree_append (u v : List Char) (hu : ∀ x ∈ u, x ≠ '/') :
    (u ++ '/' :: v).takeWhile notSlash = u ∧
    (u ++ '/' :: v).dropWhile notSlash = '/' :: v := by
  induction u with
  | nil =>
    constructor
    · rw [List.nil_append, List.takeWhile_cons_of_neg (by rw [notSlash_eq_false]; simp)]
    · rw [List.nil_append, List.dropWhile_cons_of_neg (by rw [notSlash_eq_false]; simp)]
  | cons x u ih =>
    have hx : x ≠ '/' := hu x (List.mem_cons_self _ _)
    have hrest : ∀ y ∈ u, y ≠ '/' := fun y hy => hu y (List.mem_cons_of_mem _ hy)
    obtain ⟨iht, ihd⟩ := ih hrest
    have hpx : notSlash x = true := notSlash_of_ne x hx
    constructor
    · rw [List.cons_append, List.takeWhile_cons_of_pos hpx, iht]
    · rw [List.cons_append, List.dropWhile_cons_of_pos hpx, ihd]

theorem revSeg_slashfree_append (u v : List Char) (hu : ∀ x ∈ u, x ≠ '/') :
    revSeg (u ++ '/' :: v) = (u, '/' :: v) := by
  obtain ⟨h1, h2⟩ := takeWhile_slashfree_append u v hu
  unfold revSeg
  rw [h1, h2]

theorem revSeg_cons_pos (x : Char) (l : List Char) (hx : x ≠ '/') :
    revSeg (x :: l) = (x :: l.takeWhile notSlash, l.dropWhile notSlash) := by
  unfold revSeg
  rw [List.takeWhile_cons_of_pos (notSlash_of_ne x hx),
    List.dropWhile_cons_of_pos (notSlash_of_ne x hx)]

theorem getLbNameCore_ok_iff (s : List Char) :
    (∃ r, getLbNameFromArnCore s = .ok r) ↔
      ∃ p a b c : List Char, s = p ++ a ++ '/' :: b ++ '/' :: c ∧
        a ≠ [] ∧ b ≠ [] ∧ c ≠ [] ∧
        (∀ x ∈ a, x ≠ '/') ∧ (∀ x ∈ b, x ≠ '/') ∧ (∀ x ∈ c, x ≠ '/') := by
  constructor
  · rintro ⟨r, hr⟩
    unfold getLbNameFromArnCore at hr
    split at hr <;> try (cases hr)
    split at hr <;> try (cases hr)
    split at hr <;> try (cases hr)
    rename_i x1 c1 cr r2 heq1 x2 b1 br r4 heq2 x3 a1 ar rest heq3
    have tw1 : s.reverse.takeWhile notSlash = c1 :: cr := by
      simpa [revSeg] using congrArg Prod.fst heq1
    have dw1 : s.reverse.dropWhile notSlash = '/' :: r2 := by
      simpa [revSeg] using congrArg Prod.snd heq1
    have tw2 : r2.takeWhile notSlash = b1 :: br := by
      simpa [revSeg] using congrArg Prod.fst heq2
    have dw2 : r2.dropWhile notSlash = '/' :: r4 := by
      simpa [revSeg] using congrArg Prod.snd heq2
    have tw3 : r4.takeWhile notSlash = a1 :: ar := by
      simpa [revSeg] using congrArg Prod.fst heq3
    have dw3 : r4.dropWhile notSlash = rest := by
      simpa [revSeg] using congrArg Prod.snd heq3
    have h0 : s.reverse = (c1 :: cr) ++ '/' :: r2 := by
      rw [← tw1, ← dw1, List.takeWhile_append_dropWhile]
    have h2 : r2 = (b1 :: br) ++ '/' :: r4 := by
      rw [← tw2, ← dw2, List.takeWhile_append_dropWhile]
    have h4 : r4 = (a1 :: ar) ++ rest := by
      rw [← tw3, ← dw3, List.takeWhile_append_dropWhile]
    refine ⟨rest.reverse, (a1 :: ar).reverse, (b1 :: br).reverse, (c1 :: cr).reverse,
      ?_, by simp, by simp, by simp, ?_, ?_, ?_⟩
    · rw [← List.reverse_reverse s, h0, h2, h4]
      simp [List.reverse_append]
    · intro x hx
      have hmem : x ∈ List.takeWhile notSlash r4 := by
        rw [tw3]
        exact List.mem_reverse.mp hx
      exact ne_of_notSlash x (List.mem_takeWhile_imp hmem)
    · intro x hx
      have hmem : x ∈ List.takeWhile notSlash r2 := by
        rw [tw2]
        exact List.mem_reverse.mp hx
      exact ne_of_notSlash x (List.mem_takeWhile_imp hmem)
    · intro x hx
      have hmem : x ∈ List.takeWhile notSlash s.reverse := by
        rw [tw1]
        exact List.mem_reverse.mp hx
      exact ne_of_notSlash x (List.mem_takeWhile_imp hmem)
  · rintro ⟨p, a, b, c, hs, ha, hb, hc, hfa, hfb, hfc⟩
    rcases hres : getLbNameFromArnCore s with e | r
    · exfalso
      have hrev : s.reverse =
          c.reverse ++ '/' :: (b.reverse ++ '/' :: (a.reverse ++ p.reverse)) := by
        rw [hs]
        simp [List.reverse_append]
      rcases hc1 : c.reverse with _ | ⟨c1, cr⟩
      · exact hc (by simpa using congrArg List.reverse hc1)
      rcases hb1 : b.reverse with _ | ⟨b1, br⟩
      · exact hb (by simpa using congrArg List.reverse hb1)
      rcases ha1 : a.reverse with _ | ⟨a1, ar⟩
      · exact ha (by simpa using congrArg List.reverse ha1)
      have hfc2 : ∀ x ∈ (c1 :: cr), x ≠ '/' := by
        rw [← hc1]
        exact fun x hx => hfc x (List.mem_reverse.mp hx)
      have hfb2 : ∀ x ∈ (b1 :: br), x ≠ '/' := by
        rw [← hb1]
        exact fun x hx => hfb x (List.mem_reverse.mp hx)
      have ha1ne : a1 ≠ '/' := by
        refine hfa a1 (List.mem_reverse.mp ?_)
        rw [ha1]
        exact List.mem_cons_self _ _
      rw [hc1, hb1, ha1] at hrev
      have h1 : revSeg s.reverse =
          (c1 :: cr, '/' :: ((b1 :: br) ++ '/' :: ((a1 :: ar) ++ p.reverse))) := by
        rw [hrev]
        exact revSeg_slashfree_append _ _ hfc2
      have h2 : revSeg ((b1 :: br) ++ '/' :: ((a1 :: ar) ++ p.reverse)) =
          (b1 :: br, '/' :: ((a1 :: ar) ++ p.reverse)) :=
        revSeg_slashfree_append _ _ hfb2
      have h3 : revSeg ((a1 :: ar) ++ p.reverse) =
          (a1 :: (ar ++ p.reverse).takeWhile notSlash,
            (ar ++ p.reverse).dropWhile notSlash) := by
        rw [List.cons_append]
        exact revSeg_cons_pos _ _ ha1ne
      simp only [getLbNameFromArnCore, h1, h2, h3] at hres
      cases hres
    · exact ⟨r, rfl⟩

/-- C3 counterexample: the identifier `x/y/z` contains no `loadbalancer/`
segment, yet `getLbNameFromArn` succeeds on it — so "every malformed
identifier with no loadbalancer/ segment fails with a FormatError" is false
of the code. -/
theorem c3_no_loadbalancer_segment_still_succeeds :
    ¬ List.IsInfix "loadbalancer/".data "x/y/z".data ∧
    getLbNameFromArn "x/y/z" = .ok "x/y/z" :=
  ⟨by decide, by rfl⟩

/-- C3 (amended): on the documented example the extracted suffix is
`app/my-lb/abcdef0123456789` (for both helpers); `getLbNameFromArn` fails
with its format error exactly when the identifier lacks a trailing
`segment/segment/segment` shape (three nonempty slash-free segments) — a
`loadbalancer/` keyword is not required — and the arn-suffix helper
`lbSuffixFromARN` returns the empty string, never an error, on an
identifier without the `arn:...:loadbalancer/` pattern. -/
theorem c3_suffix_extraction (s : List Char) :
    getLbNameFromArn
        "arn:partition:service:region:account:loadbalancer/app/my-lb/abcdef0123456789" =
      .ok "app/my-lb/abcdef0123456789" ∧
    lbSuffixFromARN
        (some "arn:partition:service:region:account:loadbalancer/app/my-lb/abcdef0123456789") =
      "app/my-lb/abcdef0123456789" ∧
    ((∃ e, getLbNameFromArnCore s = .error e) ↔
      ¬ ∃ p a b c : List Char, s = p ++ a ++ '/' :: b ++ '/' :: c ∧
        a ≠ [] ∧ b ≠ [] ∧ c ≠ [] ∧
        (∀ x ∈ a, x ≠ '/') ∧ (∀ x ∈ b, x ≠ '/') ∧ (∀ x ∈ c, x ≠ '/')) ∧
    lbSuffixFromARN (some "x/y/z") = "" := by
  refine ⟨by rfl, by decide, ?_, by decide⟩
  rw [← getLbNameCore_ok_iff]
  rcases h : getLbNameFromArnCore s with e | r
  · simp
  · simp

/-- C3 witness: a slash-free identifier has no trailing three-segment shape,
obtained from `c3_suffix_extraction` at its concrete format error. -/
theorem c3_suffix_extraction_witness :
    ¬ ∃ p a b c : List Char, "garbage".data = p ++ a ++ '/' :: b ++ '/' :: c ∧
      a ≠ [] ∧ b ≠ [] ∧ c ≠ [] ∧
      (∀ x ∈ a, x ≠ '/') ∧ (∀ x ∈ b, x ≠ '/') ∧ (∀ x ∈ c, x ≠ '/') :=
  ((c3_suffix_extraction "garbage".data).2.2.1).mp ⟨"Unexpected ARN format", by rfl⟩

/-- C1 witness: the characterization instantiated at a concrete changed
network-variant resource. -/
theorem c1_requiresReplacement_characterization_witness :
    requiresReplacement "network" "id-1" (some ["a"]) (some ["b"]) = true :=
  (c1_requiresReplacement_characterization "network" "id-1" (some ["a"]) (some ["b"])).mpr
    ⟨rfl, by decide, Or.inl ⟨"a", by decide, by decide⟩⟩

/-! ## Claim C5 -/

/-- C5: within the attribute diff (when the `access_logs` field registered a
change), an absent or disabled access-log block emits exactly the single
disable instruction, never bucket or prefix; an enabled block with bucket
`b` and prefix `p` emits exactly enable, bucket `b` and prefix `p`. -/
theorem c5_access_log_diff (c : UpdateCtx) (h : c.hasChangeAccessLogs = true) :
    ((c.accessLogs = none ∨ ∃ l, c.accessLogs = some l ∧ l.enabled = false) →
      (updateAttributes c).filter (fun a => isAccessLogKey a.key) =
        [⟨"access_logs.s3.enabled", "false"⟩]) ∧
    (∀ b p, c.accessLogs = some ⟨b, true, p⟩ →
      (updateAttributes c).filter (fun a => isAccessLogKey a.key) =
        [⟨"access_logs.s3.enabled", "true"⟩, ⟨"access_logs.s3.bucket", b⟩,
         ⟨"access_logs.s3.prefix", p⟩]) := by
  constructor
  · rintro (hnone | ⟨l, hsome, hen⟩)
    · simp only [updateAttributes, if_pos h, List.filter_append,
        typeSwitchAttrs_filter_access, deletionProtectionAttrs_filter_access,
        accessLogAttrs_filter_self, hnone, List.append_nil]
      simp [accessLogAttrs]
    · simp only [updateAttributes, if_pos h, List.filter_append,
        typeSwitchAttrs_filter_access, deletionProtectionAttrs_filter_access,
        accessLogAttrs_filter_self, hsome, List.append_nil]
      simp [accessLogAttrs, hen, boolStr]
  · intro b p hsome
    simp only [updateAttributes, if_pos h, List.filter_append,
      typeSwitchAttrs_filter_access, deletionProtectionAttrs_filter_access,
      accessLogAttrs_filter_self, hsome, List.append_nil]
    simp [accessLogAttrs, boolStr]

/-- C5 witness: the two concrete scenarios of the claim, obtained from
`c5_access_log_diff` at explicit update contexts. -/
theorem c5_access_log_diff_witness :
    (updateAttributes
        ⟨"application", false, false, true, false, false, false, false, false, false,
         false, false, none, 60, true, false, false, false, [], [], "ipv4"⟩).filter
      (fun a => isAccessLogKey a.key) = [⟨"access_logs.s3.enabled", "false"⟩] ∧
    (updateAttributes
        ⟨"application", false, false, true, false, false, false, false, false, false,
         false, false, some ⟨"b", true, "p"⟩, 60, true, false, false, false, [], [],
         "ipv4"⟩).filter
      (fun a => isAccessLogKey a.key) =
      [⟨"access_logs.s3.enabled", "true"⟩, ⟨"access_logs.s3.bucket", "b"⟩,
       ⟨"access_logs.s3.prefix", "p"⟩] :=
  ⟨(c5_access_log_diff _ rfl).1 (Or.inl rfl), (c5_access_log_diff _ rfl).2 "b" "p" rfl⟩

/-! ## Claim C6 -/

theorem not_mem_accessLogAttrs (logs : Option AccessLogConfig) (k v : String)
    (hk : isAccessLogKey k = false) :
    (⟨k, v⟩ : LbAttribute) ∉ accessLogAttrs logs := by
  unfold isAccessLogKey at hk
  simp only [Bool.or_eq_false_iff, decide_eq_false_iff_not] at hk
  rcases logs with _ | l
  · simp_all [accessLogAttrs, LbAttribute.mk.injEq]
  · simp only [accessLogAttrs]
    split_ifs <;> simp_all [LbAttribute.mk.injEq]

theorem not_mem_delProtAttrs (c : UpdateCtx) (k v : String)
    (hk : ¬ k = "deletion_protection.enabled") :
    (⟨k, v⟩ : LbAttribute) ∉ deletionProtectionAttrs c := by
  unfold deletionProtectionAttrs
  split_ifs <;> simp_all [LbAttribute.mk.injEq]

theorem exists_key_mem_updateAttributes (c : UpdateCtx) (k : String)
    (hk : isAccessLogKey k = false) :
    (∃ v, (⟨k, v⟩ : LbAttribute) ∈ updateAttributes c) ↔
      (∃ v, (⟨k, v⟩ : LbAttribute) ∈ typeSwitchAttrs c) ∨
        (∃ v, (⟨k, v⟩ : LbAttribute) ∈ deletionProtectionAttrs c) := by
  unfold updateAttributes
  constructor
  · rintro ⟨v, hv⟩
    rcases List.mem_append.mp hv with hv1 | hv2
    · rcases List.mem_append.mp hv1 with hv0 | hts
      · exfalso
        split_ifs at hv0 with hflag
        · exact not_mem_accessLogAttrs _ _ _ hk hv0
        · simp at hv0
      · exact Or.inl ⟨v, hts⟩
    · exact Or.inr ⟨v, hv2⟩
  · rintro (⟨v, hts⟩ | ⟨v, hdp⟩)
    · exact ⟨v, List.mem_append.mpr (Or.inl (List.mem_append.mpr (Or.inr hts)))⟩
    · exact ⟨v, List.mem_append.mpr (Or.inr hdp)⟩

theorem idle_mem_typeSwitch (c : UpdateCtx) :
    (∃ v, (⟨"idle_timeout.timeout_seconds", v⟩ : LbAttribute) ∈ typeSwitchAttrs c) ↔
      c.lbType = "application" ∧ (c.hasChangeIdleTimeout = true ∨ c.isNew = true) := by
  unfold typeSwitchAttrs
  by_cases hApp : c.lbType = "application"
  · simp only [hApp, if_pos rfl, List.mem_append]
    split_ifs <;> simp_all
  · rw [if_neg hApp]
    by_cases hGw : c.lbType = "gateway" ∨ c.lbType = "network"
    · rw [if_pos hGw]
      split_ifs <;> simp_all
    · rw [if_neg hGw]
      simp_all

theorem http2_mem_typeSwitch (c : UpdateCtx) :
    (∃ v, (⟨"routing.http2.enabled", v⟩ : LbAttribute) ∈ typeSwitchAttrs c) ↔
      c.lbType = "application" ∧ (c.hasChangeHttp2 = true ∨ c.isNew = true) := by
  unfold typeSwitchAttrs
  by_cases hApp : c.lbType = "application"
  · simp only [hApp, if_pos rfl, List.mem_append]
    split_ifs <;> simp_all
  · rw [if_neg hApp]
    by_cases hGw : c.lbType = "gateway" ∨ c.lbType = "network"
    · rw [if_pos hGw]
      split_ifs <;> simp_all
    · rw [if_neg hGw]
      simp_all

theorem drop_mem_typeSwitch (c : UpdateCtx) :
    (∃ v, (⟨"routing.http.drop_invalid_header_fields.enabled", v⟩ : LbAttribute) ∈
        typeSwitchAttrs c) ↔
      c.lbType = "application" ∧ (c.hasChangeDropInvalid = true ∨ c.isNew = true) := by
  unfold typeSwitchAttrs
  by_cases hApp : c.lbType = "application"
  · simp only [hApp, if_pos rfl, List.mem_append]
    split_ifs <;> simp_all
  · rw [if_neg hApp]
    by_cases hGw : c.lbType = "gateway" ∨ c.lbType = "network"
    · rw [if_pos hGw]
      split_ifs <;> simp_all
    · rw [if_neg hGw]
      simp_all

theorem crossZone_mem_typeSwitch (c : UpdateCtx) :
    (∃ v, (⟨"load_balancing.cross_zone.enabled", v⟩ : LbAttribute) ∈ typeSwitchAttrs c) ↔
      (c.lbType = "gateway" ∨ c.lbType = "network") ∧
        (c.hasChangeCrossZone = true ∨ c.isNew = true) := by
  unfold typeSwitchAttrs
  by_cases hApp : c.lbType = "application"
  · have hGw : ¬ (c.lbType = "gateway" ∨ c.lbType = "network") := by
      rw [hApp]
      decide
    simp only [hApp, if_pos rfl, List.mem_append]
    split_ifs <;> simp_all
  · rw [if_neg hApp]
    by_cases hGw : c.lbType = "gateway" ∨ c.lbType = "network"
    · rw [if_pos hGw]
      split_ifs <;> simp_all
    · rw [if_neg hGw]
      simp_all

theorem not_mem_typeSwitch_delProtKey (c : UpdateCtx) (v : String) :
    (⟨"deletion_protection.enabled", v⟩ : LbAttribute) ∉ typeSwitchAttrs c := by
  unfold typeSwitchAttrs
  split_ifs <;> simp_all [LbAttribute.mk.injEq]

theorem delProt_mem_iff (c : UpdateCtx) :
    (∃ v, (⟨"deletion_protection.enabled", v⟩ : LbAttribute) ∈
        deletionProtectionAttrs c) ↔
      (c.hasChangeDeletionProtection = true ∨ c.isNew = true) := by
  unfold deletionProtectionAttrs
  split_ifs <;> simp_all

/-- C6: an attribute key is emitted by the update diff iff its variant
matches and its field changed or the resource is new: idle timeout, HTTP/2
and drop-invalid-header-fields only for `application`; cross-zone only for
`gateway`/`network`; deletion protection for every variant under the same
changed-or-new rule.  Keys outside a variant's applicable set are never
emitted. -/
theorem c6_variant_conditional_attributes (c : UpdateCtx) :
    ((∃ v, (⟨"idle_timeout.timeout_seconds", v⟩ : LbAttribute) ∈ updateAttributes c) ↔
      c.lbType = "application" ∧ (c.hasChangeIdleTimeout = true ∨ c.isNew = true)) ∧
    ((∃ v, (⟨"routing.http2.enabled", v⟩ : LbAttribute) ∈ updateAttributes c) ↔
      c.lbType = "application" ∧ (c.hasChangeHttp2 = true ∨ c.isNew = true)) ∧
    ((∃ v, (⟨"routing.http.drop_invalid_header_fields.enabled", v⟩ : LbAttribute) ∈
        updateAttributes c) ↔
      c.lbType = "application" ∧ (c.hasChangeDropInvalid = true ∨ c.isNew = true)) ∧
    ((∃ v, (⟨"load_balancing.cross_zone.enabled", v⟩ : LbAttribute) ∈ updateAttributes c) ↔
      (c.lbType = "gateway" ∨ c.lbType = "network") ∧
        (c.hasChangeCrossZone = true ∨ c.isNew = true)) ∧
    ((∃ v, (⟨"deletion_protection.enabled", v⟩ : LbAttribute) ∈ updateAttributes c) ↔
      (c.hasChangeDeletionProtection = true ∨ c.isNew = true)) := by
  have hdpIdle : ¬ ∃ v, (⟨"idle_timeout.timeout_seconds", v⟩ : LbAttribute) ∈
      deletionProtectionAttrs c := by
    rintro ⟨v, hv⟩
    exact not_mem_delProtAttrs c _ v (by decide) hv
  have hdpHttp2 : ¬ ∃ v, (⟨"routing.http2.enabled", v⟩ : LbAttribute) ∈
      deletionProtectionAttrs c := by
    rintro ⟨v, hv⟩
    exact not_mem_delProtAttrs c _ v (by decide) hv
  have hdpDrop : ¬ ∃ v,
      (⟨"routing.http.drop_invalid_header_fields.enabled", v⟩ : LbAttribute) ∈
        deletionProtectionAttrs c := by
    rintro ⟨v, hv⟩
    exact not_mem_delProtAttrs c _ v (by decide) hv
  have hdpCross : ¬ ∃ v, (⟨"load_balancing.cross_zone.enabled", v⟩ : LbAttribute) ∈
      deletionProtectionAttrs c := by
    rintro ⟨v, hv⟩
    exact not_mem_delProtAttrs c _ v (by decide) hv
  have htsDp : ¬ ∃ v, (⟨"deletion_protection.enabled", v⟩ : LbAttribute) ∈
      typeSwitchAttrs c := by
    rintro ⟨v, hv⟩
    exact not_mem_typeSwitch_delProtKey c v hv
  refine ⟨?_, ?_, ?_, ?_, ?_⟩
  · rw [exists_key_mem_updateAttributes c _ (by decide), idle_mem_typeSwitch]
    simp [hdpIdle]
  · rw [exists_key_mem_updateAttributes c _ (by decide), http2_mem_typeSwitch]
    simp [hdpHttp2]
  · rw [exists_key_mem_updateAttributes c _ (by decide), drop_mem_typeSwitch]
    simp [hdpDrop]
  · rw [exists_key_mem_updateAttributes c _ (by decide), crossZone_mem_typeSwitch]
    simp [hdpCross]
  · rw [exists_key_mem_updateAttributes c _ (by decide), delProt_mem_iff]
    simp [htsDp]

/-- C6 witness: a brand-new application-variant resource whose idle timeout
equals the default 60 and registered no change still emits the
idle-timeout attribute, and a network-variant context never emits it. -/
theorem c6_variant_conditional_attributes_witness :
    (∃ v, (⟨"idle_timeout.timeout_seconds", v⟩ : LbAttribute) ∈ updateAttributes
      ⟨"application", true, false, false, false, false, false, false, false, false,
       false, false, none, 60, true, false, false, false, [], [], "ipv4"⟩) ∧
    ¬ (∃ v, (⟨"idle_timeout.timeout_seconds", v⟩ : LbAttribute) ∈ updateAttributes
      ⟨"network", true, false, false, false, false, false, false, false, false,
       false, false, none, 60, true, false, false, false, [], [], "ipv4"⟩) := by
  constructor
  · exact (c6_variant_conditional_attributes _).1.mpr ⟨rfl, Or.inr rfl⟩
  · intro hmem
    have := (c6_variant_conditional_attributes _).1.mp hmem
    exact absurd this.1 (by decide)

/-! ## Claim C4 -/

theorem flattenZone_subnet_id (az : AvailabilityZone) :
    (flattenSubnetMappingOfZone az).subnet_id = stringValue az.subnetId := by
  unfold flattenSubnetMappingOfZone
  rw [foldAddr_subnet_preserved]

theorem flattenZone_outpost_id (az : AvailabilityZone) :
    (flattenSubnetMappingOfZone az).outpost_id = stringValue az.outpostId := by
  unfold flattenSubnetMappingOfZone
  rw [foldAddr_outpost_preserved]

theorem flattenSubnets_eq_map_subnet_id (azs : List AvailabilityZone) :
    flattenSubnetsFromAvailabilityZones azs =
      (flattenSubnetMappingsFromAvailabilityZones azs).map (fun m => m.subnet_id) := by
  induction azs with
  | nil => rfl
  | cons az rest ih =>
    simp only [flattenSubnetsFromAvailabilityZones,
      flattenSubnetMappingsFromAvailabilityZones, List.map_cons, List.map_map] at *
    rw [List.cons_eq_cons]
    exact ⟨(flattenZone_subnet_id az).symm, ih⟩

/-- C4 counterexample: decoding a remote record with one availability zone
populates BOTH attachment representations at once — the subnet-id list and
the subnet-mapping list of the stored state are each nonempty,
contradicting the exactly-one invariant claimed for the post-Read state. -/
theorem c4_read_populates_both_representations :
    ∃ st, flattenAwsLbResource
        ⟨some "arn-1", some "name-1", none, [], none, none, none, none, none, none,
         [⟨some "subnet-1", none, []⟩]⟩ [] []
        ⟨false, "", "", 60, false, false, true, false⟩ = .ok st ∧
      st.subnets = ["subnet-1"] ∧ st.subnetMapping ≠ [] := by
  refine ⟨_, rfl, rfl, ?_⟩
  decide

/-- C4 (amended): the Create request carries each attachment representation
exactly when the configuration supplies it (so exactly one of the two when
the configuration sets exactly one), but the state decoded by Read always
populates the two representations in parallel — the subnet-id list is the
subnet-id projection of the mapping list, so either both carry data or
neither does. -/
theorem c4_attachment_representations :
    (∀ (lb : LoadBalancerWire) (attrList : List LbAttribute)
        (tags : List (String × String)) (prior : AttrState) (st : LbState),
      flattenAwsLbResource lb attrList tags prior = .ok st →
        st.subnets = st.subnetMapping.map (fun m => m.subnet_id) ∧
        (st.subnets = [] ↔ st.subnetMapping = [])) ∧
    (∀ cfg : CreateConfig,
      ((createAttachments cfg).subnets = none ↔ cfg.subnets = []) ∧
      ((createAttachments cfg).subnetMappings = none ↔ cfg.subnetMappings = [])) := by
  constructor
  · intro lb attrList tags prior st h
    unfold flattenAwsLbResource at h
    rcases hd : decodeAttrs
        { prior with accessEnabled := false, accessBucket := "", accessPrefixVal := "" }
        attrList with e | st2
    · rw [hd] at h
      exact absurd h (by simp)
    · rw [hd] at h
      simp only [Except.ok.injEq] at h
      rw [← h]
      refine ⟨flattenSubnets_eq_map_subnet_id _, ?_⟩
      rw [flattenSubnets_eq_map_subnet_id]
      simp
  · intro cfg
    constructor
    · unfold createAttachments
      split_ifs <;> simp_all
    · unfold createAttachments
      split_ifs <;> simp_all

/-- C4 witness: a concrete decode for which the amended parallel-population
fact is obtained from `c4_attachment_representations`. -/
theorem c4_attachment_representations_witness :
    ∃ st, flattenAwsLbResource
        ⟨some "arn-2", some "name-2", none, [], none, none, none, none, none, none,
         [⟨some "subnet-2", none, []⟩]⟩ [] []
        ⟨false, "", "", 60, false, false, true, false⟩ = .ok st ∧
      st.subnets = st.subnetMapping.map (fun m => m.subnet_id) :=
  ⟨_, rfl, (c4_attachment_representations.1 _ [] [] _ _ rfl).1⟩

/-! ## Claim C2 -/

/-- C2: decode-after-encode round trip of the Remote State Mapper.  Decoding
the wire record, attribute list and tag list encoded from a canonical
entity recovers every entity field, with the attachment recovered in
whichever of the two representations carries the data; and per
availability-zone record the decoder always captures subnet id and outpost
id, captures the three address fields only from the (last) address record
when one is present, and stores them as empty strings when no address
record is present. -/
theorem c2_remote_state_mapper_roundtrip :
    (∀ (e : LbEntity) (prior : AttrState), ∃ st : LbState,
      flattenAwsLbResource (encodeLb e) (encodeAttrs e) e.tags prior = .ok st ∧
      st.arn = e.arn ∧ st.name = e.name ∧ st.internal = e.internal ∧
      st.securityGroups = e.securityGroups ∧ st.vpcId = e.vpcId ∧
      st.zoneId = e.zoneId ∧ st.dnsName = e.dnsName ∧
      st.ipAddressType = e.ipAddressType ∧ st.loadBalancerType = e.loadBalancerType ∧
      st.customerOwnedIpv4Pool = e.customerOwnedIpv4Pool ∧ st.tags = e.tags ∧
      st.attrs = ⟨e.accessEnabled, e.accessBucket, e.accessPrefixVal, e.idleTimeout,
        e.dropInvalidHeaderFields, e.deletionProtection, e.http2, e.crossZone⟩ ∧
      (match e.attachment with
       | NetworkAttachments.subnetIds l => st.subnets = l
       | NetworkAttachments.mappings ms => st.subnetMapping.map storeSubnetMapping = ms)) ∧
    (∀ az : AvailabilityZone,
      (flattenSubnetMappingOfZone az).subnet_id = stringValue az.subnetId ∧
      (flattenSubnetMappingOfZone az).outpost_id = stringValue az.outpostId ∧
      (flattenSubnetMappingOfZone az).allocation_id =
        az.loadBalancerAddresses.getLast?.map (fun a => stringValue a.allocationId) ∧
      (flattenSubnetMappingOfZone az).private_ipv4_address =
        az.loadBalancerAddresses.getLast?.map (fun a => stringValue a.privateIPv4Address) ∧
      (flattenSubnetMappingOfZone az).ipv6_address =
        az.loadBalancerAddresses.getLast?.map (fun a => stringValue a.ipv6Address) ∧
      (az.loadBalancerAddresses = [] →
        storeSubnetMapping (flattenSubnetMappingOfZone az) =
          ⟨stringValue az.subnetId, stringValue az.outpostId, "", "", ""⟩)) := by
  constructor
  · intro e prior
    unfold flattenAwsLbResource
    rw [decodeAttrs_encodeAttrs]
    refine ⟨_, rfl, rfl, rfl, ?_, rfl, rfl, rfl, rfl, rfl, rfl, rfl, rfl, rfl, ?_⟩
    · cases h : e.internal <;> simp [encodeLb, h]
    · rcases hatt : e.attachment with l | ms
      · simp [encodeLb, hatt, flattenSubnetsFromAvailabilityZones, encodeZones,
          List.map_map, stringValue, Function.comp_def]
      · simp [encodeLb, hatt, flattenSubnetMappingsFromAvailabilityZones, encodeZones,
          List.map_map, store_flatten_encode, Function.comp_def]
  · intro az
    have hzone := foldAddr_getLast az.loadBalancerAddresses
      { subnet_id := stringValue az.subnetId
        outpost_id := stringValue az.outpostId
        allocation_id := none
        private_ipv4_address := none
        ipv6_address := none }
    refine ⟨flattenZone_subnet_id az, flattenZone_outpost_id az, ?_, ?_, ?_, ?_⟩
    · unfold flattenSubnetMappingOfZone
      rw [hzone]
      rcases az.loadBalancerAddresses.getLast? with _ | a <;> rfl
    · unfold flattenSubnetMappingOfZone
      rw [hzone]
      rcases az.loadBalancerAddresses.getLast? with _ | a <;> rfl
    · unfold flattenSubnetMappingOfZone
      rw [hzone]
      rcases az.loadBalancerAddresses.getLast? with _ | a <;> rfl
    · intro hnil
      unfold flattenSubnetMappingOfZone
      rw [hnil]
      rfl

/-- C2 witness: a zone record with no address record decodes, after the
schema store, to empty (not absent) address fields, obtained from
`c2_remote_state_mapper_roundtrip`. -/
theorem c2_remote_state_mapper_roundtrip_witness :
    storeSubnetMapping (flattenSubnetMappingOfZone ⟨some "subnet-w", some "op-w", []⟩) =
      ⟨"subnet-w", "op-w", "", "", ""⟩ :=
  (c2_remote_state_mapper_roundtrip.2 ⟨some "subnet-w", some "op-w", []⟩).2.2.2.2.2 rfl

/-! ## Claim C7 -/

/-- C7: in the update operation, the subnet call is issued iff the subnet
field changed AND the resource is not the synthetic just-created one; the
tag, security-group and IP-address-type calls depend only on their own
change flags (the new-resource suppression never touches them), and the
attribute-modification call fires exactly when the accumulated attribute
list is nonempty. -/
theorem c7_subnet_call_suppression (c : UpdateCtx) :
    (RemoteCall.setSubnets c.subnets ∈ updateCalls c ↔
      c.hasChangeSubnets = true ∧ c.isNew = false) ∧
    (RemoteCall.updateTags ∈ updateCalls c ↔ c.hasChangeTags = true) ∧
    (RemoteCall.setSecurityGroups c.securityGroups ∈ updateCalls c ↔
      c.hasChangeSecurityGroups = true) ∧
    (RemoteCall.setIpAddressType c.ipAddressType ∈ updateCalls c ↔
      c.hasChangeIpAddressType = true) ∧
    ((∃ a, RemoteCall.modifyAttributes a ∈ updateCalls c) ↔ updateAttributes c ≠ []) := by
  refine ⟨?_, ?_, ?_, ?_, ?_⟩ <;>
    · simp only [updateCalls, List.mem_append]
      split_ifs <;> simp_all

/-- C7 witness: on a synthetic just-created update context with a changed
subnet field, the subnet call is suppressed, by
`c7_subnet_call_suppression`. -/
theorem c7_subnet_call_suppression_witness :
    RemoteCall.setSubnets ["s1"] ∉ updateCalls
      ⟨"application", true, false, false, false, false, false, false, false, false,
       true, false, none, 60, true, false, false, false, [], ["s1"], "ipv4"⟩ := by
  intro hmem
  have h := (c7_subnet_call_suppression
    ⟨"application", true, false, false, false, false, false, false, false, false,
     true, false, none, 60, true, false, false, false, [], ["s1"], "ipv4"⟩).1.mp hmem
  exact absurd h.2 (by decide)

/-! ## Claim C8 -/

/-- C8: an update of an existing (non-new) resource in which no field changed
issues no remote mutation call at all — the call trace is exactly the
active-state poll followed by the re-read. -/
theorem c8_noop_update_is_mutation_free (c : UpdateCtx)
    (ht : c.hasChangeTags = false) (hal : c.hasChangeAccessLogs = false)
    (hit : c.hasChangeIdleTimeout = false) (hh : c.hasChangeHttp2 = false)
    (hd : c.hasChangeDropInvalid = false) (hcz : c.hasChangeCrossZone = false)
    (hdp : c.hasChangeDeletionProtection = false)
    (hsg : c.hasChangeSecurityGroups = false) (hs : c.hasChangeSubnets = false)
    (hip : c.hasChangeIpAddressType = false) (hn : c.isNew = false) :
    updateCalls c = [RemoteCall.pollActive, RemoteCall.readResource] := by
  simp [updateCalls, updateAttributes, typeSwitchAttrs, deletionProtectionAttrs,
    ht, hal, hit, hh, hd, hcz, hdp, hsg, hs, hip, hn]

/-- C8 witness: a concrete no-change, non-new update context produces only
the poll and the re-read. -/
theorem c8_noop_update_is_mutation_free_witness :
    updateCalls
      ⟨"application", false, false, false, false, false, false, false, false, false,
       false, false, none, 60, true, false, false, false, [], [], "ipv4"⟩ =
      [RemoteCall.pollActive, RemoteCall.readResource] :=
  c8_noop_update_is_mutation_free _ rfl rfl rfl rfl rfl rfl rfl rfl rfl rfl rfl

/-! ## Claim C9 -/

/-- C9: `resourceAwsLbDelete` succeeds iff the destroy call succeeds — the
results of the owned-ENI cleanup pass and of the platform-owned-ENI wait
loop are demoted to warnings; in particular the wait loop's
final-query-after-deadline leftover case is an error that Delete still
swallows. -/
theorem c9_delete_ignores_cleanup_failures (deleteLbOk : Bool)
    (c w : Except String Unit) :
    ((resourceAwsLbDelete deleteLbOk c w).1 = .ok () ↔ deleteLbOk = true) ∧
    (∃ e, waitForNLBNetworkInterfacesToDetach "a/b/c".data [some 2, some 1] (some 2) =
      .error e) ∧
    (resourceAwsLbDelete true (.error "cleanup failed")
        (waitForNLBNetworkInterfacesToDetach "a/b/c".data [some 2, some 1] (some 2))).1 =
      .ok () := by
  refine ⟨?_, ⟨"Error waiting for ENIs to clean up", by rfl⟩, by rfl⟩
  cases deleteLbOk <;> simp [resourceAwsLbDelete]

/-- C9 witness: a failed destroy call fails Delete even when both cleanup
phases succeed, by `c9_delete_ignores_cleanup_failures`. -/
theorem c9_delete_ignores_cleanup_failures_witness :
    (resourceAwsLbDelete false (.ok ()) (.ok ())).1 ≠ .ok () := by
  intro hok
  have h := (c9_delete_ignores_cleanup_failures false (.ok ()) (.ok ())).1.mp hok
  exact absurd h (by decide)

/-! ## Claim C10 -/

/-- C10: every successful run of the update operation — including a no-op
update issuing no mutation call — executes the poll-until-active step and
then the full re-read as its final two calls before returning. -/
theorem c10_update_polls_and_rereads (c : UpdateCtx) (ok : RemoteCall → Bool)
    (tr : List RemoteCall) (h : runUpdate c ok = .ok tr) :
    ∃ pre, tr = pre ++ [RemoteCall.pollActive, RemoteCall.readResource] := by
  have htr := runCalls_ok_trace ok (updateCalls c) tr h
  refine ⟨(if c.hasChangeTags then [RemoteCall.updateTags] else []) ++
    (if updateAttributes c ≠ [] then [RemoteCall.modifyAttributes (updateAttributes c)]
     else []) ++
    (if c.hasChangeSecurityGroups then [RemoteCall.setSecurityGroups c.securityGroups]
     else []) ++
    (if c.hasChangeSubnets && !c.isNew then [RemoteCall.setSubnets c.subnets] else []) ++
    (if c.hasChangeIpAddressType then [RemoteCall.setIpAddressType c.ipAddressType]
     else []), ?_⟩
  rw [htr]
  simp [updateCalls, List.append_assoc]

/-- C10 witness: a concrete no-op update run against an all-success oracle
still ends in the poll and the re-read. -/
theorem c10_update_polls_and_rereads_witness :
    ∃ pre, ([RemoteCall.pollActive, RemoteCall.readResource] : List RemoteCall) =
      pre ++ [RemoteCall.pollActive, RemoteCall.readResource] :=
  c10_update_polls_and_rereads
    ⟨"application", false, false, false, false, false, false, false, false, false,
     false, false, none, 60, true, false, false, false, [], [], "ipv4"⟩
    (fun _ => true) _ (by rfl)

end LbSpec
